import Mathlib

/-!
Shallow embedding of the frustum-geometry component of the repository
(`packages/dev/core/src/Maths/math.frustum.ts`): extraction of the six
frustum planes from a 4x4 row-major matrix, and the point-in-frustum
containment test.  Scalars are modelled as real numbers; the mutable
`Plane` targets of the TypeScript code become values that are overwritten
field by field and returned.
-/

namespace Frustum

/-- A 3-component vector (x, y, z), as in `math.vector.ts`. -/
structure Vector3 where
  x : ℝ
  y : ℝ
  z : ℝ

/-- A plane with normal `(normal.x, normal.y, normal.z)` and offset `d`,
as in `math.plane.ts`; the half-space equation is `normal ⬝ P + d ≥ 0`. -/
structure Plane where
  normal : Vector3
  d : ℝ

/-- The Euclidean magnitude of a vector. -/
noncomputable def Vector3.length (v : Vector3) : ℝ :=
  Real.sqrt (v.x ^ 2 + v.y ^ 2 + v.z ^ 2)

/-- Modelled from the spec: `Plane.normalize` is defined in
`math.plane.ts`, which is not among the provided sources.  Per the spec
(§4.1, §7): compute `len = sqrt(nx²+ny²+nz²)`; when `len` is nonzero,
divide the normal components and `d` by `len`; when `len` is zero the
plane is left degenerate — the spec's example defensive policy, leave the
normal as the zero vector and `d` zero, is adopted here (multiplying by a
zero magnitude). -/
noncomputable def Plane.normalize (p : Plane) : Plane :=
  let norm := Real.sqrt (p.normal.x ^ 2 + p.normal.y ^ 2 + p.normal.z ^ 2)
  let magnitude := if norm = 0 then 0 else 1 / norm
  { normal :=
      { x := p.normal.x * magnitude
        y := p.normal.y * magnitude
        z := p.normal.z * magnitude }
    d := p.d * magnitude }

/-- Modelled from the spec: `Plane.dotCoordinate` is defined in
`math.plane.ts`, which is not among the provided sources.  Per the spec
(§4.1), the signed distance of a point to a plane is
`dot(plane.normal, point) + plane.d`. -/
noncomputable def Plane.dotCoordinate (p : Plane) (point : Vector3) : ℝ :=
  p.normal.x * point.x + p.normal.y * point.y + p.normal.z * point.z + p.d

/-- A 4x4 row-major matrix flattened into 16 scalars, indexed 0..15
(row r, column c at index `r*4+c`), as exposed by `Matrix.m`.  The
component reads only indices 0..15; the index type is left as `ℕ` so that
concrete matrices evaluate by arithmetic on numerals. -/
def Matrix16 : Type := ℕ → ℝ

/-- Embedding of `GetNearPlaneToRef`: writes the four fields of the
target plane from the matrix, then normalizes. -/
noncomputable def GetNearPlaneToRef (transform : Matrix16) (frustumPlane : Plane) : Plane :=
  let m := transform
  let fp := { frustumPlane with normal.x := m 3 + m 2 }
  let fp := { fp with normal.y := m 7 + m 6 }
  let fp := { fp with normal.z := m 11 + m 10 }
  let fp := { fp with d := m 15 + m 14 }
  fp.normalize

/-- Embedding of `GetFarPlaneToRef`. -/
noncomputable def GetFarPlaneToRef (transform : Matrix16) (frustumPlane : Plane) : Plane :=
  let m := transform
  let fp := { frustumPlane with normal.x := m 3 - m 2 }
  let fp := { fp with normal.y := m 7 - m 6 }
  let fp := { fp with normal.z := m 11 - m 10 }
  let fp := { fp with d := m 15 - m 14 }
  fp.normalize

/-- Embedding of `GetLeftPlaneToRef`. -/
noncomputable def GetLeftPlaneToRef (transform : Matrix16) (frustumPlane : Plane) : Plane :=
  let m := transform
  let fp := { frustumPlane with normal.x := m 3 + m 0 }
  let fp := { fp with normal.y := m 7 + m 4 }
  let fp := { fp with normal.z := m 11 + m 8 }
  let fp := { fp with d := m 15 + m 12 }
  fp.normalize

/-- Embedding of `GetRightPlaneToRef`. -/
noncomputable def GetRightPlaneToRef (transform : Matrix16) (frustumPlane : Plane) : Plane :=
  let m := transform
  let fp := { frustumPlane with normal.x := m 3 - m 0 }
  let fp := { fp with normal.y := m 7 - m 4 }
  let fp := { fp with normal.z := m 11 - m 8 }
  let fp := { fp with d := m 15 - m 12 }
  fp.normalize

/-- Embedding of `GetTopPlaneToRef`. -/
noncomputable def GetTopPlaneToRef (transform : Matrix16) (frustumPlane : Plane) : Plane :=
  let m := transform
  let fp := { frustumPlane with normal.x := m 3 - m 1 }
  let fp := { fp with normal.y := m 7 - m 5 }
  let fp := { fp with normal.z := m 11 - m 9 }
  let fp := { fp with d := m 15 - m 13 }
  fp.normalize

/-- Embedding of `GetBottomPlaneToRef`. -/
noncomputable def GetBottomPlaneToRef (transform : Matrix16) (frustumPlane : Plane) : Plane :=
  let m := transform
  let fp := { frustumPlane with normal.x := m 3 + m 1 }
  let fp := { fp with normal.y := m 7 + m 5 }
  let fp := { fp with normal.z := m 11 + m 9 }
  let fp := { fp with d := m 15 + m 13 }
  fp.normalize

/-- Embedding of `GetPlanesToRef`: overwrites slots 0..5 of the given
storage in the fixed order near, far, left, right, top, bottom.  Indexing
a missing slot (a JavaScript out-of-bounds access followed by a property
write on `undefined`) is a fault, modelled as `none`. -/
noncomputable def GetPlanesToRef (transform : Matrix16) (frustumPlanes : List Plane) :
    Option (List Plane) := do
  let p0 ← frustumPlanes[0]?
  let frustumPlanes := frustumPlanes.set 0 (GetNearPlaneToRef transform p0)
  let p1 ← frustumPlanes[1]?
  let frustumPlanes := frustumPlanes.set 1 (GetFarPlaneToRef transform p1)
  let p2 ← frustumPlanes[2]?
  let frustumPlanes := frustumPlanes.set 2 (GetLeftPlaneToRef transform p2)
  let p3 ← frustumPlanes[3]?
  let frustumPlanes := frustumPlanes.set 3 (GetRightPlaneToRef transform p3)
  let p4 ← frustumPlanes[4]?
  let frustumPlanes := frustumPlanes.set 4 (GetTopPlaneToRef transform p4)
  let p5 ← frustumPlanes[5]?
  let frustumPlanes := frustumPlanes.set 5 (GetBottomPlaneToRef transform p5)
  return frustumPlanes

/-- The zero plane `new Plane(0.0, 0.0, 0.0, 0.0)` used to pre-fill the
freshly allocated storage of `GetPlanes`. -/
def zeroPlane : Plane := { normal := { x := 0, y := 0, z := 0 }, d := 0 }

/-- Embedding of `GetPlanes`: allocates six zero planes, fills them with
`GetPlanesToRef` and returns them (on a six-slot array `GetPlanesToRef`
never faults, so the fallback branch is unreachable). -/
noncomputable def GetPlanes (transform : Matrix16) : List Plane :=
  let frustumPlanes := List.replicate 6 zeroPlane
  (GetPlanesToRef transform frustumPlanes).getD frustumPlanes

/-- The loop of `IsPointInFrustum`, starting at index `i`: for
`i = 0..5`, fault (`none`) if slot `i` is missing, return `some false`
as soon as a strictly negative signed distance is found, and `some true`
once `i` reaches 6. -/
noncomputable def inFrustumFrom (point : Vector3) (frustumPlanes : List Plane) (i : ℕ) :
    Option Bool :=
  if i < 6 then
    match frustumPlanes[i]? with
    | none => none
    | some pl =>
      if pl.dotCoordinate point < 0 then some false
      else inFrustumFrom point frustumPlanes (i + 1)
  else
    some true
termination_by 6 - i

/-- Embedding of `IsPointInFrustum`: checks exactly the first six planes
of the sequence, short-circuiting on the first strictly negative signed
distance. -/
noncomputable def IsPointInFrustum (point : Vector3) (frustumPlanes : List Plane) :
    Option Bool :=
  inFrustumFrom point frustumPlanes 0

/-- The identity matrix: ones on the diagonal (indices 0, 5, 10, 15),
zeros elsewhere. -/
noncomputable def idMatrix : Matrix16 := fun i =>
  if i = 0 ∨ i = 5 ∨ i = 10 ∨ i = 15 then 1 else 0

/-- The raw (pre-normalization) near plane of the §4.1 table:
normal `(m[3]+m[2], m[7]+m[6], m[11]+m[10])`, `d = m[15]+m[14]`. -/
def rawNearPlane (m : Matrix16) : Plane :=
  { normal := { x := m 3 + m 2, y := m 7 + m 6, z := m 11 + m 10 }, d := m 15 + m 14 }

/-- The raw far plane of the §4.1 table:
normal `(m[3]-m[2], m[7]-m[6], m[11]-m[10])`, `d = m[15]-m[14]`. -/
def rawFarPlane (m : Matrix16) : Plane :=
  { normal := { x := m 3 - m 2, y := m 7 - m 6, z := m 11 - m 10 }, d := m 15 - m 14 }

/-- The raw left plane of the §4.1 table:
normal `(m[3]+m[0], m[7]+m[4], m[11]+m[8])`, `d = m[15]+m[12]`. -/
def rawLeftPlane (m : Matrix16) : Plane :=
  { normal := { x := m 3 + m 0, y := m 7 + m 4, z := m 11 + m 8 }, d := m 15 + m 12 }

/-- The raw right plane of the §4.1 table:
normal `(m[3]-m[0], m[7]-m[4], m[11]-m[8])`, `d = m[15]-m[12]`. -/
def rawRightPlane (m : Matrix16) : Plane :=
  { normal := { x := m 3 - m 0, y := m 7 - m 4, z := m 11 - m 8 }, d := m 15 - m 12 }

/-- The raw top plane of the §4.1 table:
normal `(m[3]-m[1], m[7]-m[5], m[11]-m[9])`, `d = m[15]-m[13]`. -/
def rawTopPlane (m : Matrix16) : Plane :=
  { normal := { x := m 3 - m 1, y := m 7 - m 5, z := m 11 - m 9 }, d := m 15 - m 13 }

/-- The raw bottom plane of the §4.1 table:
normal `(m[3]+m[1], m[7]+m[5], m[11]+m[9])`, `d = m[15]+m[13]`. -/
def rawBottomPlane (m : Matrix16) : Plane :=
  { normal := { x := m 3 + m 1, y := m 7 + m 5, z := m 11 + m 9 }, d := m 15 + m 13 }

/-- The all-zero (fully degenerate) matrix. -/
noncomputable def zeroMatrix : Matrix16 := fun _ => 0

/-- Spec-side reading of one row of the §4.1 table (for the refinement
claim C1): the extractor writes exactly the raw coefficients `raw m` into
the target plane and then normalizes; whenever the raw normal's length is
nonzero, the result is the raw plane with the normal components and `d`
divided by that length. -/
def extractsRaw (extract : Matrix16 → Plane → Plane) (raw : Matrix16 → Plane) : Prop :=
  ∀ m fp, extract m fp = (raw m).normalize ∧
    ((raw m).normal.length ≠ 0 →
      extract m fp =
        { normal :=
            { x := (raw m).normal.x / (raw m).normal.length
              y := (raw m).normal.y / (raw m).normal.length
              z := (raw m).normal.z / (raw m).normal.length }
          d := (raw m).d / (raw m).normal.length })

/-- The state visible to a single-plane extraction call: the input matrix
and the target plane.  The TypeScript bodies assign only to fields of
`frustumPlane`; translating each call as a state transformer makes that
frame property a provable statement. -/
structure ExtractState where
  transform : Matrix16
  frustumPlane : Plane

/-- State-transformer reading of `GetNearPlaneToRef`: the body updates the
`frustumPlane` component with the extracted plane and touches nothing
else. -/
noncomputable def GetNearPlaneToRefRun (s : ExtractState) : ExtractState :=
  { s with frustumPlane := GetNearPlaneToRef s.transform s.frustumPlane }

/-- State-transformer reading of `GetFarPlaneToRef`. -/
noncomputable def GetFarPlaneToRefRun (s : ExtractState) : ExtractState :=
  { s with frustumPlane := GetFarPlaneToRef s.transform s.frustumPlane }

/-- State-transformer reading of `GetLeftPlaneToRef`. -/
noncomputable def GetLeftPlaneToRefRun (s : ExtractState) : ExtractState :=
  { s with frustumPlane := GetLeftPlaneToRef s.transform s.frustumPlane }

/-- State-transformer reading of `GetRightPlaneToRef`. -/
noncomputable def GetRightPlaneToRefRun (s : ExtractState) : ExtractState :=
  { s with frustumPlane := GetRightPlaneToRef s.transform s.frustumPlane }

/-- State-transformer reading of `GetTopPlaneToRef`. -/
noncomputable def GetTopPlaneToRefRun (s : ExtractState) : ExtractState :=
  { s with frustumPlane := GetTopPlaneToRef s.transform s.frustumPlane }

/-- State-transformer reading of `GetBottomPlaneToRef`. -/
noncomputable def GetBottomPlaneToRefRun (s : ExtractState) : ExtractState :=
  { s with frustumPlane := GetBottomPlaneToRef s.transform s.frustumPlane }

/-- The state visible to `GetPlanesToRef`: the input matrix and the
six-slot storage. -/
structure PlanesState where
  transform : Matrix16
  frustumPlanes : List Plane

/-- State-transformer reading of `GetPlanesToRef`: the body updates only
the `frustumPlanes` component (or faults on missing slots). -/
noncomputable def GetPlanesToRefRun (s : PlanesState) : Option PlanesState :=
  (GetPlanesToRef s.transform s.frustumPlanes).map
    fun planes => { s with frustumPlanes := planes }

/-- The state visible to `IsPointInFrustum`: the point under test and the
plane sequence.  The source body contains no assignment at all, so its
state transformer returns the state unchanged next to the result. -/
structure QueryState where
  point : Vector3
  frustumPlanes : List Plane

/-- State-transformer reading of `IsPointInFrustum`. -/
noncomputable def IsPointInFrustumRun (s : QueryState) : Option Bool × QueryState :=
  (IsPointInFrustum s.point s.frustumPlanes, s)

lemma getNearPlaneToRef_eq (m : Matrix16) (fp : Plane) :
    GetNearPlaneToRef m fp = (rawNearPlane m).normalize := rfl

lemma getFarPlaneToRef_eq (m : Matrix16) (fp : Plane) :
    GetFarPlaneToRef m fp = (rawFarPlane m).normalize := rfl

lemma getLeftPlaneToRef_eq (m : Matrix16) (fp : Plane) :
    GetLeftPlaneToRef m fp = (rawLeftPlane m).normalize := rfl

lemma getRightPlaneToRef_eq (m : Matrix16) (fp : Plane) :
    GetRightPlaneToRef m fp = (rawRightPlane m).normalize := rfl

lemma getTopPlaneToRef_eq (m : Matrix16) (fp : Plane) :
    GetTopPlaneToRef m fp = (rawTopPlane m).normalize := rfl

lemma getBottomPlaneToRef_eq (m : Matrix16) (fp : Plane) :
    GetBottomPlaneToRef m fp = (rawBottomPlane m).normalize := rfl

lemma normalize_eq_div (p : Plane) (h : p.normal.length ≠ 0) :
    p.normalize =
      { normal :=
          { x := p.normal.x / p.normal.length
            y := p.normal.y / p.normal.length
            z := p.normal.z / p.normal.length }
        d := p.d / p.normal.length } := by
  have h0 : Real.sqrt (p.normal.x ^ 2 + p.normal.y ^ 2 + p.normal.z ^ 2) ≠ 0 := h
  simp only [Plane.normalize, Vector3.length] at *
  rw [if_neg h0]
  simp [div_eq_mul_inv, mul_comm]

lemma normalize_eq_zero (p : Plane) (h : p.normal.length = 0) :
    p.normalize = zeroPlane := by
  have h0 : Real.sqrt (p.normal.x ^ 2 + p.normal.y ^ 2 + p.normal.z ^ 2) = 0 := h
  simp only [Plane.normalize, Vector3.length] at *
  rw [if_pos h0]
  simp [zeroPlane]

lemma normalize_length_one (p : Plane) (h : p.normal.length ≠ 0) :
    p.normalize.normal.length = 1 := by
  have hs : (0 : ℝ) ≤ p.normal.x ^ 2 + p.normal.y ^ 2 + p.normal.z ^ 2 := by positivity
  have hsq : Real.sqrt (p.normal.x ^ 2 + p.normal.y ^ 2 + p.normal.z ^ 2) ^ 2
      = p.normal.x ^ 2 + p.normal.y ^ 2 + p.normal.z ^ 2 := Real.sq_sqrt hs
  have h0 : Real.sqrt (p.normal.x ^ 2 + p.normal.y ^ 2 + p.normal.z ^ 2) ≠ 0 := h
  rw [normalize_eq_div p h]
  simp only [Vector3.length] at *
  have key : (p.normal.x / Real.sqrt (p.normal.x ^ 2 + p.normal.y ^ 2 + p.normal.z ^ 2)) ^ 2
      + (p.normal.y / Real.sqrt (p.normal.x ^ 2 + p.normal.y ^ 2 + p.normal.z ^ 2)) ^ 2
      + (p.normal.z / Real.sqrt (p.normal.x ^ 2 + p.normal.y ^ 2 + p.normal.z ^ 2)) ^ 2 = 1 := by
    have hs0 : p.normal.x ^ 2 + p.normal.y ^ 2 + p.normal.z ^ 2 ≠ 0 := by
      intro hz
      exact h0 (by rw [hz, Real.sqrt_zero])
    field_simp
  rw [key, Real.sqrt_one]

lemma getNearPlaneToRef_congr (m : Matrix16) (fp fp2 : Plane) :
    GetNearPlaneToRef m fp = GetNearPlaneToRef m fp2 := rfl

lemma getFarPlaneToRef_congr (m : Matrix16) (fp fp2 : Plane) :
    GetFarPlaneToRef m fp = GetFarPlaneToRef m fp2 := rfl

lemma getLeftPlaneToRef_congr (m : Matrix16) (fp fp2 : Plane) :
    GetLeftPlaneToRef m fp = GetLeftPlaneToRef m fp2 := rfl

lemma getRightPlaneToRef_congr (m : Matrix16) (fp fp2 : Plane) :
    GetRightPlaneToRef m fp = GetRightPlaneToRef m fp2 := rfl

lemma getTopPlaneToRef_congr (m : Matrix16) (fp fp2 : Plane) :
    GetTopPlaneToRef m fp = GetTopPlaneToRef m fp2 := rfl

lemma getBottomPlaneToRef_congr (m : Matrix16) (fp fp2 : Plane) :
    GetBottomPlaneToRef m fp = GetBottomPlaneToRef m fp2 := rfl

lemma getPlanesToRef_cons (m : Matrix16) (a b c d e f : Plane) (rest : List Plane) :
    GetPlanesToRef m (a :: b :: c :: d :: e :: f :: rest) =
      some (GetNearPlaneToRef m a :: GetFarPlaneToRef m b :: GetLeftPlaneToRef m c ::
        GetRightPlaneToRef m d :: GetTopPlaneToRef m e :: GetBottomPlaneToRef m f :: rest) := by
  simp [GetPlanesToRef]

lemma eq_six_of_length (planes : List Plane) (h : planes.length = 6) :
    planes = [planes.getD 0 zeroPlane, planes.getD 1 zeroPlane, planes.getD 2 zeroPlane,
      planes.getD 3 zeroPlane, planes.getD 4 zeroPlane, planes.getD 5 zeroPlane] := by
  rcases planes with _ | ⟨a, planes⟩
  · simp at h
  rcases planes with _ | ⟨b, planes⟩
  · simp at h
  rcases planes with _ | ⟨c, planes⟩
  · simp at h
  rcases planes with _ | ⟨d, planes⟩
  · simp at h
  rcases planes with _ | ⟨e, planes⟩
  · simp at h
  rcases planes with _ | ⟨f, planes⟩
  · simp at h
  rcases planes with _ | ⟨g, planes⟩
  · rfl
  · simp at h

lemma getPlanesToRef_of_length (m : Matrix16) (planes : List Plane)
    (h : planes.length = 6) :
    GetPlanesToRef m planes =
      some [GetNearPlaneToRef m (planes.getD 0 zeroPlane),
        GetFarPlaneToRef m (planes.getD 1 zeroPlane),
        GetLeftPlaneToRef m (planes.getD 2 zeroPlane),
        GetRightPlaneToRef m (planes.getD 3 zeroPlane),
        GetTopPlaneToRef m (planes.getD 4 zeroPlane),
        GetBottomPlaneToRef m (planes.getD 5 zeroPlane)] := by
  have hsix := eq_six_of_length planes h
  rw [hsix]
  exact getPlanesToRef_cons m _ _ _ _ _ _ []

lemma replicate_six :
    List.replicate 6 zeroPlane =
      [zeroPlane, zeroPlane, zeroPlane, zeroPlane, zeroPlane, zeroPlane] := rfl

lemma getPlanes_eq (m : Matrix16) :
    GetPlanes m =
      [GetNearPlaneToRef m zeroPlane, GetFarPlaneToRef m zeroPlane,
        GetLeftPlaneToRef m zeroPlane, GetRightPlaneToRef m zeroPlane,
        GetTopPlaneToRef m zeroPlane, GetBottomPlaneToRef m zeroPlane] := by
  unfold GetPlanes
  simp only [replicate_six, getPlanesToRef_cons, Option.getD_some]

lemma inFrustumFrom_stop (point : Vector3) (planes : List Plane) (i : ℕ) (h : 6 ≤ i) :
    inFrustumFrom point planes i = some true := by
  rw [inFrustumFrom, if_neg (Nat.not_lt.mpr h)]

lemma inFrustumFrom_none_of_oob (point : Vector3) (planes : List Plane) (i : ℕ)
    (h6 : i < 6) (hnone : planes[i]? = none) :
    inFrustumFrom point planes i = none := by
  rw [inFrustumFrom, if_pos h6, hnone]

lemma inFrustumFrom_step (point : Vector3) (planes : List Plane) (i : ℕ) (pl : Plane)
    (h6 : i < 6) (hsome : planes[i]? = some pl) :
    inFrustumFrom point planes i =
      if pl.dotCoordinate point < 0 then some false
      else inFrustumFrom point planes (i + 1) := by
  rw [inFrustumFrom, if_pos h6, hsome]

lemma inFrustumFrom_spec (point : Vector3) (planes : List Plane) (hlen : 6 ≤ planes.length) :
    ∀ k i, i + k = 6 →
      (inFrustumFrom point planes i).isSome = true ∧
      (inFrustumFrom point planes i = some true ↔
        ∀ j, i ≤ j → j < 6 → 0 ≤ (planes.getD j zeroPlane).dotCoordinate point) := by
  intro k
  induction k with
  | zero =>
    intro i hik
    have hi : i = 6 := by omega
    subst hi
    rw [inFrustumFrom_stop point planes 6 le_rfl]
    refine ⟨rfl, ?_⟩
    constructor
    · intro _ j hj1 hj2
      omega
    · intro _
      rfl
  | succ k ih =>
    intro i hik
    have hi6 : i < 6 := by omega
    have hilen : i < planes.length := lt_of_lt_of_le hi6 hlen
    have hget : planes[i]? = some (planes.getD i zeroPlane) := by
      rw [List.getElem?_eq_getElem hilen, List.getD_eq_getElem planes zeroPlane hilen]
    rw [inFrustumFrom_step point planes i _ hi6 hget]
    by_cases hneg : (planes.getD i zeroPlane).dotCoordinate point < 0
    · rw [if_pos hneg]
      refine ⟨rfl, ?_⟩
      constructor
      · intro hfalse
        exact absurd hfalse (by simp)
      · intro hall
        exact absurd (hall i le_rfl hi6) (not_le.mpr hneg)
    · rw [if_neg hneg]
      obtain ⟨ihSome, ihIff⟩ := ih (i + 1) (by omega)
      refine ⟨ihSome, ?_⟩
      rw [ihIff]
      constructor
      · intro hall j hij hj6
        rcases Nat.eq_or_lt_of_le hij with hji | hji
        · rw [← hji]
          exact not_lt.mp hneg
        · exact hall j hji hj6
      · intro hall j hij hj6
        exact hall j (by omega) hj6

lemma inFrustumFrom_take (point : Vector3) (planes : List Plane) (hlen : 6 ≤ planes.length) :
    ∀ k i, i + k = 6 →
      inFrustumFrom point (planes.take 6) i = inFrustumFrom point planes i := by
  intro k
  induction k with
  | zero =>
    intro i hik
    have hi : i = 6 := by omega
    subst hi
    rw [inFrustumFrom_stop point _ 6 le_rfl, inFrustumFrom_stop point _ 6 le_rfl]
  | succ k ih =>
    intro i hik
    have hi6 : i < 6 := by omega
    have hilen : i < planes.length := lt_of_lt_of_le hi6 hlen
    have hgetP : planes[i]? = some (planes.getD i zeroPlane) := by
      rw [List.getElem?_eq_getElem hilen, List.getD_eq_getElem planes zeroPlane hilen]
    have hgetT : (planes.take 6)[i]? = some (planes.getD i zeroPlane) := by
      rw [List.getElem?_take, if_pos hi6, hgetP]
    rw [inFrustumFrom_step point planes i _ hi6 hgetP,
      inFrustumFrom_step point (planes.take 6) i _ hi6 hgetT]
    rw [ih (i + 1) (by omega)]

lemma inFrustumFrom_none_short (point : Vector3) (planes : List Plane)
    (hshort : planes.length < 6)
    (hpos : ∀ pl ∈ planes, 0 ≤ pl.dotCoordinate point) :
    ∀ k i, i + k = 6 → i ≤ planes.length → inFrustumFrom point planes i = none := by
  intro k
  induction k with
  | zero =>
    intro i hik hile
    omega
  | succ k ih =>
    intro i hik hile
    have hi6 : i < 6 := by omega
    rcases Nat.eq_or_lt_of_le hile with heq | hlt
    · have hnone : planes[i]? = none := by
        rw [List.getElem?_eq_none]
        omega
      exact inFrustumFrom_none_of_oob point planes i hi6 hnone
    · have hget : planes[i]? = some planes[i] := List.getElem?_eq_getElem hlt
      rw [inFrustumFrom_step point planes i _ hi6 hget]
      have hmem : planes[i] ∈ planes := List.getElem_mem hlt
      rw [if_neg (not_lt.mpr (hpos _ hmem))]
      exact ih (i + 1) (by omega) hlt

/-- C1: each of the six single-plane extractors writes into the target
plane exactly the raw §4.1 coefficients (near `m[3]+m[2]` …, far
`m[3]-m[2]` …, left `+m[0]` …, right `-m[0]` …, top `-m[1]` …, bottom
`+m[1]` …) and then normalizes: when the raw normal's length is nonzero,
the normal components and `d` are divided by that length. -/
theorem raw_coefficients_and_normalization :
    extractsRaw GetNearPlaneToRef rawNearPlane ∧
    extractsRaw GetFarPlaneToRef rawFarPlane ∧
    extractsRaw GetLeftPlaneToRef rawLeftPlane ∧
    extractsRaw GetRightPlaneToRef rawRightPlane ∧
    extractsRaw GetTopPlaneToRef rawTopPlane ∧
    extractsRaw GetBottomPlaneToRef rawBottomPlane := by
  refine ⟨?_, ?_, ?_, ?_, ?_, ?_⟩
  · intro m fp
    refine ⟨getNearPlaneToRef_eq m fp, fun h => ?_⟩
    rw [getNearPlaneToRef_eq, normalize_eq_div _ h]
  · intro m fp
    refine ⟨getFarPlaneToRef_eq m fp, fun h => ?_⟩
    rw [getFarPlaneToRef_eq, normalize_eq_div _ h]
  · intro m fp
    refine ⟨getLeftPlaneToRef_eq m fp, fun h => ?_⟩
    rw [getLeftPlaneToRef_eq, normalize_eq_div _ h]
  · intro m fp
    refine ⟨getRightPlaneToRef_eq m fp, fun h => ?_⟩
    rw [getRightPlaneToRef_eq, normalize_eq_div _ h]
  · intro m fp
    refine ⟨getTopPlaneToRef_eq m fp, fun h => ?_⟩
    rw [getTopPlaneToRef_eq, normalize_eq_div _ h]
  · intro m fp
    refine ⟨getBottomPlaneToRef_eq m fp, fun h => ?_⟩
    rw [getBottomPlaneToRef_eq, normalize_eq_div _ h]

/-- Witness for C1 at the identity matrix: the near raw normal has
nonzero length, and the extractor output is the divided raw plane. -/
theorem raw_coefficients_and_normalization_witness :
    (rawNearPlane idMatrix).normal.length ≠ 0 ∧
    GetNearPlaneToRef idMatrix zeroPlane =
      { normal :=
          { x := (rawNearPlane idMatrix).normal.x / (rawNearPlane idMatrix).normal.length
            y := (rawNearPlane idMatrix).normal.y / (rawNearPlane idMatrix).normal.length
            z := (rawNearPlane idMatrix).normal.z / (rawNearPlane idMatrix).normal.length }
        d := (rawNearPlane idMatrix).d / (rawNearPlane idMatrix).normal.length } := by
  have hne : (rawNearPlane idMatrix).normal.length ≠ 0 := by
    simp [rawNearPlane, idMatrix, Vector3.length]
  exact ⟨hne, (raw_coefficients_and_normalization.1 idMatrix zeroPlane).2 hne⟩

/-- C3: for a matrix whose six raw plane normals all have nonzero length,
every plane produced by the six single-plane extractors, by
`GetPlanesToRef`, and by `GetPlanes` has a unit-length normal. -/
theorem extracted_normals_unit_length (m : Matrix16) (fp : Plane) (planes : List Plane)
    (hplanes : planes.length = 6)
    (hnear : (rawNearPlane m).normal.length ≠ 0)
    (hfar : (rawFarPlane m).normal.length ≠ 0)
    (hleft : (rawLeftPlane m).normal.length ≠ 0)
    (hright : (rawRightPlane m).normal.length ≠ 0)
    (htop : (rawTopPlane m).normal.length ≠ 0)
    (hbottom : (rawBottomPlane m).normal.length ≠ 0) :
    (GetNearPlaneToRef m fp).normal.length = 1 ∧
    (GetFarPlaneToRef m fp).normal.length = 1 ∧
    (GetLeftPlaneToRef m fp).normal.length = 1 ∧
    (GetRightPlaneToRef m fp).normal.length = 1 ∧
    (GetTopPlaneToRef m fp).normal.length = 1 ∧
    (GetBottomPlaneToRef m fp).normal.length = 1 ∧
    (∀ l, GetPlanesToRef m planes = some l → ∀ pl ∈ l, pl.normal.length = 1) ∧
    (∀ pl ∈ GetPlanes m, pl.normal.length = 1) := by
  have hN : ∀ q : Plane, (GetNearPlaneToRef m q).normal.length = 1 := fun q => by
    rw [getNearPlaneToRef_eq]
    exact normalize_length_one _ hnear
  have hF : ∀ q : Plane, (GetFarPlaneToRef m q).normal.length = 1 := fun q => by
    rw [getFarPlaneToRef_eq]
    exact normalize_length_one _ hfar
  have hL : ∀ q : Plane, (GetLeftPlaneToRef m q).normal.length = 1 := fun q => by
    rw [getLeftPlaneToRef_eq]
    exact normalize_length_one _ hleft
  have hR : ∀ q : Plane, (GetRightPlaneToRef m q).normal.length = 1 := fun q => by
    rw [getRightPlaneToRef_eq]
    exact normalize_length_one _ hright
  have hT : ∀ q : Plane, (GetTopPlaneToRef m q).normal.length = 1 := fun q => by
    rw [getTopPlaneToRef_eq]
    exact normalize_length_one _ htop
  have hB : ∀ q : Plane, (GetBottomPlaneToRef m q).normal.length = 1 := fun q => by
    rw [getBottomPlaneToRef_eq]
    exact normalize_length_one _ hbottom
  refine ⟨hN fp, hF fp, hL fp, hR fp, hT fp, hB fp, ?_, ?_⟩
  · intro l hl
    rw [getPlanesToRef_of_length m planes hplanes] at hl
    rw [← Option.some_inj.mp hl]
    intro pl hpl
    simp only [List.mem_cons, List.not_mem_nil, or_false] at hpl
    rcases hpl with rfl | rfl | rfl | rfl | rfl | rfl
    · exact hN _
    · exact hF _
    · exact hL _
    · exact hR _
    · exact hT _
    · exact hB _
  · rw [getPlanes_eq]
    intro pl hpl
    simp only [List.mem_cons, List.not_mem_nil, or_false] at hpl
    rcases hpl with rfl | rfl | rfl | rfl | rfl | rfl
    · exact hN _
    · exact hF _
    · exact hL _
    · exact hR _
    · exact hT _
    · exact hB _

/-- Witness for C3 at the identity matrix. -/
theorem extracted_normals_unit_length_witness :
    (GetNearPlaneToRef idMatrix zeroPlane).normal.length = 1 := by
  refine (extracted_normals_unit_length idMatrix zeroPlane
    [zeroPlane, zeroPlane, zeroPlane, zeroPlane, zeroPlane, zeroPlane] rfl
    ?_ ?_ ?_ ?_ ?_ ?_).1
  · simp [rawNearPlane, idMatrix, Vector3.length]
  · simp [rawFarPlane, idMatrix, Vector3.length]
  · simp [rawLeftPlane, idMatrix, Vector3.length]
  · simp [rawRightPlane, idMatrix, Vector3.length]
  · simp [rawTopPlane, idMatrix, Vector3.length]
  · simp [rawBottomPlane, idMatrix, Vector3.length]

/-- C4: on six pre-allocated slots, `GetPlanesToRef` overwrites slot 0
with the near plane, slot 1 far, slot 2 left, slot 3 right, slot 4 top,
slot 5 bottom, each equal to the corresponding single-plane extractor
applied to the same matrix and that slot. -/
theorem getPlanesToRef_slot_order (m : Matrix16) (planes : List Plane)
    (h : planes.length = 6) :
    GetPlanesToRef m planes =
      some [GetNearPlaneToRef m (planes.getD 0 zeroPlane),
        GetFarPlaneToRef m (planes.getD 1 zeroPlane),
        GetLeftPlaneToRef m (planes.getD 2 zeroPlane),
        GetRightPlaneToRef m (planes.getD 3 zeroPlane),
        GetTopPlaneToRef m (planes.getD 4 zeroPlane),
        GetBottomPlaneToRef m (planes.getD 5 zeroPlane)] :=
  getPlanesToRef_of_length m planes h

/-- Witness for C4 on six zero planes and the identity matrix. -/
theorem getPlanesToRef_slot_order_witness :
    GetPlanesToRef idMatrix [zeroPlane, zeroPlane, zeroPlane, zeroPlane, zeroPlane, zeroPlane] =
      some [GetNearPlaneToRef idMatrix zeroPlane, GetFarPlaneToRef idMatrix zeroPlane,
        GetLeftPlaneToRef idMatrix zeroPlane, GetRightPlaneToRef idMatrix zeroPlane,
        GetTopPlaneToRef idMatrix zeroPlane, GetBottomPlaneToRef idMatrix zeroPlane] := by
  simpa using getPlanesToRef_slot_order idMatrix
    [zeroPlane, zeroPlane, zeroPlane, zeroPlane, zeroPlane, zeroPlane] rfl

/-- C5: `GetPlanes` returns a sequence of exactly six planes whose values
are the ones `GetPlanesToRef` writes into any caller-provided six-slot
storage. -/
theorem getPlanes_fresh_equiv (m : Matrix16) (slots : List Plane)
    (h : slots.length = 6) :
    (GetPlanes m).length = 6 ∧ GetPlanesToRef m slots = some (GetPlanes m) := by
  constructor
  · rw [getPlanes_eq]
    rfl
  · rw [getPlanesToRef_of_length m slots h, getPlanes_eq,
      getNearPlaneToRef_congr m (slots.getD 0 zeroPlane) zeroPlane,
      getFarPlaneToRef_congr m (slots.getD 1 zeroPlane) zeroPlane,
      getLeftPlaneToRef_congr m (slots.getD 2 zeroPlane) zeroPlane,
      getRightPlaneToRef_congr m (slots.getD 3 zeroPlane) zeroPlane,
      getTopPlaneToRef_congr m (slots.getD 4 zeroPlane) zeroPlane,
      getBottomPlaneToRef_congr m (slots.getD 5 zeroPlane) zeroPlane]

/-- Witness for C5 at the identity matrix and six zero-plane slots. -/
theorem getPlanes_fresh_equiv_witness :
    (GetPlanes idMatrix).length = 6 ∧
    GetPlanesToRef idMatrix [zeroPlane, zeroPlane, zeroPlane, zeroPlane, zeroPlane, zeroPlane] =
      some (GetPlanes idMatrix) :=
  getPlanes_fresh_equiv idMatrix
    [zeroPlane, zeroPlane, zeroPlane, zeroPlane, zeroPlane, zeroPlane] rfl

/-- C2: on a sequence of at least six planes, `IsPointInFrustum` returns
`some true` exactly when all of the first six signed distances are
non-negative (so a point exactly on a plane counts as inside), returns
`some false` exactly when one of the first six is strictly negative, and
entries beyond index 5 have no effect (truncating to the first six slots
leaves the result unchanged). -/
theorem isPointInFrustum_spec (point : Vector3) (planes : List Plane)
    (h : 6 ≤ planes.length) :
    (IsPointInFrustum point planes = some true ↔
      ∀ j, j < 6 → 0 ≤ (planes.getD j zeroPlane).dotCoordinate point) ∧
    (IsPointInFrustum point planes = some false ↔
      ∃ j, j < 6 ∧ (planes.getD j zeroPlane).dotCoordinate point < 0) ∧
    IsPointInFrustum point (planes.take 6) = IsPointInFrustum point planes := by
  obtain ⟨hSome, hTrue⟩ := inFrustumFrom_spec point planes h 6 0 rfl
  have hTrue2 : IsPointInFrustum point planes = some true ↔
      ∀ j, j < 6 → 0 ≤ (planes.getD j zeroPlane).dotCoordinate point := by
    rw [IsPointInFrustum, hTrue]
    exact ⟨fun hall j hj => hall j (Nat.zero_le j) hj, fun hall j _ hj => hall j hj⟩
  refine ⟨hTrue2, ?_, inFrustumFrom_take point planes h 6 0 rfl⟩
  rcases hx : IsPointInFrustum point planes with _ | b
  · rw [IsPointInFrustum] at hx
    rw [hx] at hSome
    simp at hSome
  · cases b
    · constructor
      · intro _
        have hnt : ¬(IsPointInFrustum point planes = some true) := by
          rw [hx]
          simp
        rw [hTrue2] at hnt
        push_neg at hnt
        obtain ⟨j, hj6, hneg⟩ := hnt
        exact ⟨j, hj6, hneg⟩
      · intro _
        rfl
    · constructor
      · intro hf
        exact absurd hf (by simp)
      · rintro ⟨j, hj6, hneg⟩
        have h0 := (hTrue2.mp hx) j hj6
        exact absurd hneg (not_lt.mpr h0)

/-- Witness for C2: the origin against six zero planes (signed distance
exactly zero on every plane) is reported inside. -/
theorem isPointInFrustum_spec_witness :
    IsPointInFrustum { x := 0, y := 0, z := 0 }
      [zeroPlane, zeroPlane, zeroPlane, zeroPlane, zeroPlane, zeroPlane] = some true := by
  refine (isPointInFrustum_spec { x := 0, y := 0, z := 0 }
    [zeroPlane, zeroPlane, zeroPlane, zeroPlane, zeroPlane, zeroPlane] (by simp)).1.mpr ?_
  intro j hj
  interval_cases j <;> simp [zeroPlane, Plane.dotCoordinate]

/-- C6: plane extraction is deterministic and idempotent — the result does
not depend on the target's prior contents, extracting twice into the same
storage equals extracting once, and re-running `GetPlanesToRef` on its own
output reproduces that output. -/
theorem extraction_deterministic_idempotent (m : Matrix16) (fp fp2 : Plane)
    (planes planes2 : List Plane) (h : planes.length = 6)
    (h2 : GetPlanesToRef m planes = some planes2) :
    GetNearPlaneToRef m fp = GetNearPlaneToRef m fp2 ∧
    GetFarPlaneToRef m fp = GetFarPlaneToRef m fp2 ∧
    GetLeftPlaneToRef m fp = GetLeftPlaneToRef m fp2 ∧
    GetRightPlaneToRef m fp = GetRightPlaneToRef m fp2 ∧
    GetTopPlaneToRef m fp = GetTopPlaneToRef m fp2 ∧
    GetBottomPlaneToRef m fp = GetBottomPlaneToRef m fp2 ∧
    GetNearPlaneToRef m (GetNearPlaneToRef m fp) = GetNearPlaneToRef m fp ∧
    GetFarPlaneToRef m (GetFarPlaneToRef m fp) = GetFarPlaneToRef m fp ∧
    GetLeftPlaneToRef m (GetLeftPlaneToRef m fp) = GetLeftPlaneToRef m fp ∧
    GetRightPlaneToRef m (GetRightPlaneToRef m fp) = GetRightPlaneToRef m fp ∧
    GetTopPlaneToRef m (GetTopPlaneToRef m fp) = GetTopPlaneToRef m fp ∧
    GetBottomPlaneToRef m (GetBottomPlaneToRef m fp) = GetBottomPlaneToRef m fp ∧
    GetPlanesToRef m planes2 = some planes2 := by
  refine ⟨rfl, rfl, rfl, rfl, rfl, rfl, rfl, rfl, rfl, rfl, rfl, rfl, ?_⟩
  rw [getPlanesToRef_of_length m planes h] at h2
  obtain rfl := Option.some_inj.mp h2
  rw [getPlanesToRef_cons]
  rfl

/-- Witness for C6: `GetPlanesToRef` applied to its own output on the
identity matrix reproduces that output. -/
theorem extraction_deterministic_idempotent_witness :
    GetPlanesToRef idMatrix
        [GetNearPlaneToRef idMatrix zeroPlane, GetFarPlaneToRef idMatrix zeroPlane,
          GetLeftPlaneToRef idMatrix zeroPlane, GetRightPlaneToRef idMatrix zeroPlane,
          GetTopPlaneToRef idMatrix zeroPlane, GetBottomPlaneToRef idMatrix zeroPlane] =
      some [GetNearPlaneToRef idMatrix zeroPlane, GetFarPlaneToRef idMatrix zeroPlane,
        GetLeftPlaneToRef idMatrix zeroPlane, GetRightPlaneToRef idMatrix zeroPlane,
        GetTopPlaneToRef idMatrix zeroPlane, GetBottomPlaneToRef idMatrix zeroPlane] :=
  (extraction_deterministic_idempotent idMatrix zeroPlane zeroPlane
    [zeroPlane, zeroPlane, zeroPlane, zeroPlane, zeroPlane, zeroPlane] _ rfl
    (getPlanesToRef_cons idMatrix zeroPlane zeroPlane zeroPlane zeroPlane zeroPlane
      zeroPlane [])).2.2.2.2.2.2.2.2.2.2.2.2

/-- C7: no extraction signals an error — a zero-length raw normal yields
the degenerate zero plane instead of a fault, and on six slots
`GetPlanesToRef` always completes with all six slots computed. -/
theorem extraction_total_no_error (m : Matrix16) (fp : Plane) (planes : List Plane)
    (h : planes.length = 6) :
    ((rawNearPlane m).normal.length = 0 → GetNearPlaneToRef m fp = zeroPlane) ∧
    ((rawFarPlane m).normal.length = 0 → GetFarPlaneToRef m fp = zeroPlane) ∧
    ((rawLeftPlane m).normal.length = 0 → GetLeftPlaneToRef m fp = zeroPlane) ∧
    ((rawRightPlane m).normal.length = 0 → GetRightPlaneToRef m fp = zeroPlane) ∧
    ((rawTopPlane m).normal.length = 0 → GetTopPlaneToRef m fp = zeroPlane) ∧
    ((rawBottomPlane m).normal.length = 0 → GetBottomPlaneToRef m fp = zeroPlane) ∧
    (GetPlanesToRef m planes).isSome = true := by
  refine ⟨fun hz => ?_, fun hz => ?_, fun hz => ?_, fun hz => ?_, fun hz => ?_,
    fun hz => ?_, ?_⟩
  · rw [getNearPlaneToRef_eq]
    exact normalize_eq_zero _ hz
  · rw [getFarPlaneToRef_eq]
    exact normalize_eq_zero _ hz
  · rw [getLeftPlaneToRef_eq]
    exact normalize_eq_zero _ hz
  · rw [getRightPlaneToRef_eq]
    exact normalize_eq_zero _ hz
  · rw [getTopPlaneToRef_eq]
    exact normalize_eq_zero _ hz
  · rw [getBottomPlaneToRef_eq]
    exact normalize_eq_zero _ hz
  · rw [getPlanesToRef_of_length m planes h]
    rfl

/-- Witness for C7 at the all-zero matrix: the raw near normal is
degenerate, the near extraction still completes with the zero plane, and
`GetPlanesToRef` still fills all six slots. -/
theorem extraction_total_no_error_witness :
    (rawNearPlane zeroMatrix).normal.length = 0 ∧
    GetNearPlaneToRef zeroMatrix zeroPlane = zeroPlane ∧
    (GetPlanesToRef zeroMatrix
      [zeroPlane, zeroPlane, zeroPlane, zeroPlane, zeroPlane, zeroPlane]).isSome = true := by
  have hz : (rawNearPlane zeroMatrix).normal.length = 0 := by
    simp [rawNearPlane, zeroMatrix, Vector3.length]
  have h := extraction_total_no_error zeroMatrix zeroPlane
    [zeroPlane, zeroPlane, zeroPlane, zeroPlane, zeroPlane, zeroPlane] rfl
  exact ⟨hz, h.1 hz, h.2.2.2.2.2.2⟩

/-- C8: read as state transformers, the extraction operations write only
the target plane storage — the input matrix component is unchanged — and
`IsPointInFrustum` leaves its entire state (point and planes) unchanged. -/
theorem no_mutation_of_inputs (s : ExtractState) (sp : PlanesState) (sq : QueryState) :
    (GetNearPlaneToRefRun s).transform = s.transform ∧
    (GetFarPlaneToRefRun s).transform = s.transform ∧
    (GetLeftPlaneToRefRun s).transform = s.transform ∧
    (GetRightPlaneToRefRun s).transform = s.transform ∧
    (GetTopPlaneToRefRun s).transform = s.transform ∧
    (GetBottomPlaneToRefRun s).transform = s.transform ∧
    (∀ sp2, GetPlanesToRefRun sp = some sp2 → sp2.transform = sp.transform) ∧
    (IsPointInFrustumRun sq).2 = sq := by
  refine ⟨rfl, rfl, rfl, rfl, rfl, rfl, ?_, rfl⟩
  intro sp2 h2
  rcases Option.map_eq_some'.mp h2 with ⟨l, -, rfl⟩
  rfl

/-- Witness for C8 at concrete states. -/
theorem no_mutation_of_inputs_witness :
    (GetNearPlaneToRefRun { transform := idMatrix, frustumPlane := zeroPlane }).transform =
      idMatrix ∧
    (IsPointInFrustumRun { point := { x := 0, y := 0, z := 0 }, frustumPlanes := [] }).2 =
      { point := { x := 0, y := 0, z := 0 }, frustumPlanes := [] } := by
  have h := no_mutation_of_inputs { transform := idMatrix, frustumPlane := zeroPlane }
    { transform := idMatrix, frustumPlanes := [] }
    { point := { x := 0, y := 0, z := 0 }, frustumPlanes := [] }
  exact ⟨h.1, h.2.2.2.2.2.2.2⟩

/-- C9: at the identity matrix every extractor yields the normalized
cardinal-direction plane of the §4.1 table: near `(0,0,1), d=1`, far
`(0,0,-1), d=1`, left `(1,0,0), d=1`, right `(-1,0,0), d=1`, top
`(0,-1,0), d=1`, bottom `(0,1,0), d=1`. -/
theorem identity_matrix_planes (fp : Plane) :
    GetNearPlaneToRef idMatrix fp = { normal := { x := 0, y := 0, z := 1 }, d := 1 } ∧
    GetFarPlaneToRef idMatrix fp = { normal := { x := 0, y := 0, z := -1 }, d := 1 } ∧
    GetLeftPlaneToRef idMatrix fp = { normal := { x := 1, y := 0, z := 0 }, d := 1 } ∧
    GetRightPlaneToRef idMatrix fp = { normal := { x := -1, y := 0, z := 0 }, d := 1 } ∧
    GetTopPlaneToRef idMatrix fp = { normal := { x := 0, y := -1, z := 0 }, d := 1 } ∧
    GetBottomPlaneToRef idMatrix fp = { normal := { x := 0, y := 1, z := 0 }, d := 1 } := by
  refine ⟨?_, ?_, ?_, ?_, ?_, ?_⟩ <;>
  · simp only [GetNearPlaneToRef, GetFarPlaneToRef, GetLeftPlaneToRef, GetRightPlaneToRef,
      GetTopPlaneToRef, GetBottomPlaneToRef, Plane.normalize, idMatrix]
    norm_num

/-- Witness for C9 with the zero plane as the pre-existing target. -/
theorem identity_matrix_planes_witness :
    GetNearPlaneToRef idMatrix zeroPlane =
      { normal := { x := 0, y := 0, z := 1 }, d := 1 } :=
  (identity_matrix_planes zeroPlane).1

/-- C10: with at least six planes `IsPointInFrustum` is defined (no
out-of-bounds access), while with fewer than six planes, none of which has
a strictly negative signed distance, the loop reaches a missing slot and
the fault branch is taken — a sequence length of at least six is an
unstated precondition. -/
theorem isPointInFrustum_six_precondition (point : Vector3) (planes : List Plane) :
    (6 ≤ planes.length → (IsPointInFrustum point planes).isSome = true) ∧
    (planes.length < 6 → (∀ pl ∈ planes, 0 ≤ pl.dotCoordinate point) →
      IsPointInFrustum point planes = none) := by
  constructor
  · intro h
    rw [IsPointInFrustum]
    exact (inFrustumFrom_spec point planes h 6 0 rfl).1
  · intro hshort hpos
    rw [IsPointInFrustum]
    exact inFrustumFrom_none_short point planes hshort hpos 6 0 rfl (Nat.zero_le _)

/-- Witness for C10: six zero planes give a defined result; the empty
sequence (no negative distances present) faults. -/
theorem isPointInFrustum_six_precondition_witness :
    (IsPointInFrustum { x := 0, y := 0, z := 0 }
      [zeroPlane, zeroPlane, zeroPlane, zeroPlane, zeroPlane, zeroPlane]).isSome = true ∧
    IsPointInFrustum { x := 0, y := 0, z := 0 } ([] : List Plane) = none := by
  constructor
  · exact (isPointInFrustum_six_precondition { x := 0, y := 0, z := 0 }
      [zeroPlane, zeroPlane, zeroPlane, zeroPlane, zeroPlane, zeroPlane]).1 (by simp)
  · exact (isPointInFrustum_six_precondition { x := 0, y := 0, z := 0 } []).2
      (by simp) (by simp)

end Frustum
